import Mathlib

/-
Verification of the FSC moodlet widget (lehcode/fsc-moodlet-demo).

The repository contains two versions of the FSCMoodlet component and a
class-name joining helper.  We embed the state machine of the component:
the closed enumerations FSCState and FSCAction, the transition function
getNextState (both versions), the click handler (modelled as a pure
function from the state map to the new state map together with the list
of onChange notifications it emits), the useState initializer that merges
caller overrides over the Required defaults, the label computation of
renderMoodlet, and joinClassNames.
-/

/-- The four lifecycle states of an action, from the FSCState union type. -/
inductive FSCState
  | NOT_REQUIRED
  | REQUIRED
  | CURRENT
  | COMPLETED
deriving DecidableEq, Repr

/-- The three maintenance actions, from the FSCAction union type. -/
inductive FSCAction
  | FUELLING
  | SERVICING
  | CLEANING
deriving DecidableEq, Repr

open FSCState FSCAction

/-- The per-instance state map Record FSCAction FSCState.  The TS record
type is total: it always has exactly the three action keys, which the
function type captures by construction. -/
abbrev StateMap := FSCAction → FSCState

/-- The stateFlow lookup table shared by both versions of getNextState. -/
def stateFlow : FSCState → FSCState
  | NOT_REQUIRED => REQUIRED
  | REQUIRED => CURRENT
  | CURRENT => COMPLETED
  | COMPLETED => CURRENT

/-- getNextState of the first FSCMoodlet version: a plain table lookup. -/
def getNextStateV1 (currentState : FSCState) : FSCState :=
  stateFlow currentState

/-- getNextState of the second FSCMoodlet version: an early return for
COMPLETED, then the table lookup. -/
def getNextState (currentState : FSCState) : FSCState :=
  if currentState = COMPLETED then
    CURRENT
  else
    stateFlow currentState

/-- The record spread update setStates performs:
prev with the entry for item replaced by newState. -/
def setState (states : StateMap) (item : FSCAction) (newState : FSCState) : StateMap :=
  fun b => if b = item then newState else states b

/-- handleClick of the second FSCMoodlet version, as a pure function.
Inputs: the disabled prop, the current state map, the clicked item,
whether the click is a right click, and whether an onChange callback is
provided.  Output: the new state map and the list of (item, newState)
notifications delivered to onChange.  When disabled it returns early
and nothing changes. -/
def handleClick (disabled : Bool) (states : StateMap) (item : FSCAction)
    (isRightClick : Bool) (hasOnChange : Bool) :
    StateMap × List (FSCAction × FSCState) :=
  if disabled then
    (states, [])
  else
    let newState := if isRightClick then NOT_REQUIRED else getNextState (states item)
    (setState states item newState,
     if hasOnChange then [(item, newState)] else [])

/-- handleClick of the first FSCMoodlet version: no disabled prop and no
early return, so it always updates the entry and notifies onChange when
provided. -/
def handleClickV1 (states : StateMap) (item : FSCAction)
    (isRightClick : Bool) (hasOnChange : Bool) :
    StateMap × List (FSCAction × FSCState) :=
  let newState := if isRightClick then NOT_REQUIRED else getNextStateV1 (states item)
  (setState states item newState,
   if hasOnChange then [(item, newState)] else [])

/-- The useState initializer of the second version: the three Required
defaults spread-merged with the caller-supplied partial initialStates,
so a key present in initialStates overrides the default. -/
def initStates (initialStates : FSCAction → Option FSCState) : StateMap :=
  fun a =>
    match initialStates a with
    | some s => s
    | none => REQUIRED

/-- The variant prop: letter or word. -/
inductive Variant
  | letter
  | word
deriving DecidableEq, Repr

/-- The string name of each action, as written in the TS union type. -/
def actionName : FSCAction → String
  | FUELLING => "FUELLING"
  | SERVICING => "SERVICING"
  | CLEANING => "CLEANING"

/-- The label computed by renderMoodlet of the second version:
item[0] for the letter variant, item.toLowerCase() for the word
variant. -/
def moodletLabel (variant : Variant) (item : FSCAction) : String :=
  if variant = Variant.letter then
    (actionName item).take 1
  else
    (actionName item).toLower

/-- The label computed by renderMoodlet of the first version:
item[0] for the letter variant, but the plain item, with no
lowercasing, for the word variant. -/
def moodletLabelV1 (variant : Variant) (item : FSCAction) : String :=
  if variant = Variant.letter then
    (actionName item).take 1
  else
    actionName item

/-- The expected labels, read off the rendering contract of the spec:
the first character of the action name for the letter variant and the
lowercased full name for the word variant. -/
def specLabel : Variant → FSCAction → String
  | Variant.letter, FUELLING => "F"
  | Variant.letter, SERVICING => "S"
  | Variant.letter, CLEANING => "C"
  | Variant.word, FUELLING => "fuelling"
  | Variant.word, SERVICING => "servicing"
  | Variant.word, CLEANING => "cleaning"

/-- joinClassNames: classes.filter(Boolean).join(' ').  A token survives
the filter exactly when it is defined and non-empty (truthy), and the
survivors are joined with single spaces. -/
def joinClassNames (classes : List (Option String)) : String :=
  String.intercalate " "
    (classes.filterMap (fun c =>
      match c with
      | some s => if s.isEmpty then none else some s
      | none => none))

/-- The token list described by the spec contract: exactly those tokens
that are defined and non-empty, in order. -/
def specTokens (classes : List (Option String)) : List String :=
  (classes.filterMap id).filter (fun s => s ≠ "")

/- Theorems -/

/-- C1: the transition function is exactly the four-entry table
NOT_REQUIRED to REQUIRED, REQUIRED to CURRENT, CURRENT to COMPLETED,
COMPLETED to CURRENT, and the getNextState of the first version agrees
with it on every state. -/
theorem getNextState_is_the_table :
    getNextState NOT_REQUIRED = REQUIRED ∧
    getNextState REQUIRED = CURRENT ∧
    getNextState CURRENT = COMPLETED ∧
    getNextState COMPLETED = CURRENT ∧
    (∀ s, getNextStateV1 s = getNextState s) := by
  refine ⟨rfl, rfl, rfl, rfl, ?_⟩
  intro s
  cases s <;> rfl

/-- C2: when disabled is false, one primary activation on item A maps the
entry for A to getNextState of its current state, leaves every other
entry unchanged (the map stays total on the three actions by its type),
and emits exactly one (A, next state) notification when an onChange
callback is provided, none otherwise. -/
theorem primary_activation_effect :
    ∀ (m : StateMap) (A : FSCAction) (hc : Bool) (b : FSCAction),
      (handleClick false m A false hc).1 b =
        (if b = A then getNextState (m A) else m b) ∧
      (handleClick false m A false hc).2 =
        (if hc then [(A, getNextState (m A))] else []) := by
  intro m A hc b
  exact ⟨rfl, rfl⟩

/-- C3: when disabled is false, one secondary activation on item A forces
the entry for A to NOT_REQUIRED regardless of its current state, leaves
the other entries unchanged, and emits exactly one (A, NOT_REQUIRED)
notification when an onChange callback is provided. -/
theorem secondary_activation_effect :
    ∀ (m : StateMap) (A : FSCAction) (hc : Bool) (b : FSCAction),
      (handleClick false m A true hc).1 b =
        (if b = A then NOT_REQUIRED else m b) ∧
      (handleClick false m A true hc).2 =
        (if hc then [(A, NOT_REQUIRED)] else []) := by
  intro m A hc b
  exact ⟨rfl, rfl⟩

/-- C4: when disabled is true, every activation, primary or secondary,
leaves the entire state map unchanged and emits no onChange
notification. -/
theorem disabled_noop :
    ∀ (m : StateMap) (A : FSCAction) (rc hc : Bool) (b : FSCAction),
      (handleClick true m A rc hc).1 b = m b ∧
      (handleClick true m A rc hc).2 = [] := by
  intro m A rc hc b
  exact ⟨rfl, rfl⟩

/-- C5: the initializer defaults every action to REQUIRED when no
initialStates are supplied; in general an action starts at the supplied
state when its key is present and at REQUIRED when it is absent. -/
theorem initStates_defaults :
    (∀ a, initStates (fun _ => none) a = REQUIRED) ∧
    (∀ init a s, init a = some s → initStates init a = s) ∧
    (∀ init a, init a = none → initStates init a = REQUIRED) := by
  refine ⟨fun a => rfl, ?_, ?_⟩
  · intro init a s h
    simp [initStates, h]
  · intro init a h
    simp [initStates, h]

/-- C5 witness: with initialStates supplying only SERVICING as CURRENT,
servicing starts CURRENT and fuelling starts REQUIRED. -/
theorem initStates_defaults_witness :
    initStates (fun a => if a = SERVICING then some CURRENT else none) SERVICING = CURRENT ∧
    initStates (fun a => if a = SERVICING then some CURRENT else none) FUELLING = REQUIRED :=
  ⟨initStates_defaults.2.1 (fun a => if a = SERVICING then some CURRENT else none)
      SERVICING CURRENT (by decide),
   initStates_defaults.2.2 (fun a => if a = SERVICING then some CURRENT else none)
      FUELLING (by decide)⟩

/-- C6 counterexample: in the first renderMoodlet version the
word-variant label of FUELLING is the raw uppercase action name, not
the lowercased full name the claim states. -/
theorem moodletLabelV1_word_uppercase :
    moodletLabelV1 Variant.word FUELLING = actionName FUELLING ∧
    moodletLabelV1 Variant.word FUELLING ≠ specLabel Variant.word FUELLING := by
  exact ⟨rfl, by decide⟩

/-- C6 as amended: in the second renderMoodlet version the label is the
first character of the action name for the letter variant and the
lowercased full name for the word variant, for every action; in the
first version the letter-variant label is likewise the first character,
but the word-variant label is the full uppercase action name. -/
theorem moodletLabel_versions :
    (∀ v a, moodletLabel v a = specLabel v a) ∧
    (∀ a, moodletLabelV1 Variant.letter a = specLabel Variant.letter a) ∧
    (∀ a, moodletLabelV1 Variant.word a = actionName a) := by
  refine ⟨?_, ?_, ?_⟩
  · intro v a
    cases v <;> cases a <;>
      simp only [moodletLabel, String.toLower, String.map_eq] <;> decide
  · intro a
    cases a <;> decide
  · intro a
    cases a <;> rfl

/-- C7: joinClassNames space-joins exactly the tokens that are defined
and non-empty, in order; in particular it sends [a, undefined, b] to
"a b" and the empty sequence to "". -/
theorem joinClassNames_contract :
    (∀ classes, joinClassNames classes = String.intercalate " " (specTokens classes)) ∧
    joinClassNames [some "a", none, some "b"] = "a b" ∧
    joinClassNames [] = "" := by
  refine ⟨?_, rfl, rfl⟩
  intro classes
  unfold joinClassNames specTokens
  congr 1
  induction classes with
  | nil => rfl
  | cons c rest ih =>
    cases c with
    | none => simpa using ih
    | some s =>
      by_cases h : s = ""
      · subst h
        simpa using ih
      · have hne : s.isEmpty = false := by
          cases he : s.isEmpty with
          | false => rfl
          | true => exact absurd ((String.isEmpty_iff s).mp he) h
        simp [List.filterMap_cons, List.filter_cons, hne, h, ih]

/-- C8: no primary activation ever produces NOT_REQUIRED: getNextState
never returns it, and after a primary click (any disabled flag, any
callback) an entry can be NOT_REQUIRED only if it already was. -/
theorem not_required_only_by_secondary :
    (∀ s, getNextState s ≠ NOT_REQUIRED) ∧
    (∀ (d : Bool) (m : StateMap) (A : FSCAction) (hc : Bool) (b : FSCAction),
      (handleClick d m A false hc).1 b = NOT_REQUIRED → m b = NOT_REQUIRED) := by
  constructor
  · intro s
    cases s <;> simp [getNextState, stateFlow]
  · intro d m A hc b h
    cases d with
    | true => exact h
    | false =>
      by_cases hb : b = A
      · subst hb
        exfalso
        have hnext : (handleClick false m b false hc).1 b = getNextState (m b) := by
          simp [handleClick, setState]
        rw [hnext] at h
        cases hs : m b <;> rw [hs] at h <;> simp [getNextState, stateFlow] at h
      · have : (handleClick false m A false hc).1 b = m b := by
          simp [handleClick, setState, hb]
        rw [this] at h
        exact h

/-- C8 witness: primary-activating FUELLING on the all-NOT_REQUIRED map
leaves SERVICING at NOT_REQUIRED, and the theorem recovers that it was
already NOT_REQUIRED before the click. -/
theorem not_required_only_by_secondary_witness :
    (fun _ : FSCAction => NOT_REQUIRED) SERVICING = NOT_REQUIRED :=
  not_required_only_by_secondary.2 false (fun _ => NOT_REQUIRED) FUELLING true SERVICING
    (by decide)

/-- C9: iterating getNextState from REQUIRED gives CURRENT at every odd
step and COMPLETED at every even step from step one on, and COMPLETED
always advances back to CURRENT. -/
theorem primary_cycle_from_required :
    (∀ n, 1 ≤ n → getNextState^[n] REQUIRED =
      (if n % 2 = 1 then CURRENT else COMPLETED)) ∧
    getNextState COMPLETED = CURRENT := by
  have aux : ∀ k, getNextState^[k] CURRENT =
      (if k % 2 = 0 then CURRENT else COMPLETED) := by
    intro k
    induction k with
    | zero => rfl
    | succ k ih =>
      rw [Function.iterate_succ_apply', ih]
      rcases Nat.even_or_odd k with hk | hk
      · have h0 : k % 2 = 0 := Nat.even_iff.mp hk
        have h1 : (k + 1) % 2 = 1 := by omega
        simp [h0, h1, getNextState, stateFlow]
      · have h0 : k % 2 = 1 := Nat.odd_iff.mp hk
        have h1 : (k + 1) % 2 = 0 := by omega
        simp [h0, h1, getNextState, stateFlow]
  refine ⟨?_, rfl⟩
  intro n hn
  obtain ⟨m, rfl⟩ : ∃ m, n = m + 1 := ⟨n - 1, by omega⟩
  rw [Function.iterate_succ_apply]
  have hstep : getNextState REQUIRED = CURRENT := rfl
  rw [hstep, aux m]
  rcases Nat.even_or_odd m with hm | hm
  · have h0 : m % 2 = 0 := Nat.even_iff.mp hm
    have h1 : (m + 1) % 2 = 1 := by omega
    simp [h0, h1]
  · have h0 : m % 2 = 1 := Nat.odd_iff.mp hm
    have h1 : (m + 1) % 2 = 0 := by omega
    simp [h0, h1]

/-- C9 witness: three primary activations from REQUIRED land on CURRENT,
as 3 is odd. -/
theorem primary_cycle_from_required_witness :
    1 ≤ 3 ∧ getNextState^[3] REQUIRED = (if 3 % 2 = 1 then CURRENT else COMPLETED) :=
  ⟨by decide, primary_cycle_from_required.1 3 (by decide)⟩

/-- C10: the first FSCMoodlet version has no disabled path: every
activation updates the clicked entry to the computed new state and
notifies onChange exactly once when the callback is provided, and emits
nothing only when no callback is supplied. -/
theorem v1_unconditional_update :
    ∀ (m : StateMap) (item : FSCAction) (rc : Bool) (b : FSCAction),
      (handleClickV1 m item rc true).1 b =
        (if b = item then (if rc then NOT_REQUIRED else getNextStateV1 (m item)) else m b) ∧
      (handleClickV1 m item rc true).2 =
        [(item, if rc then NOT_REQUIRED else getNextStateV1 (m item))] ∧
      (handleClickV1 m item rc false).2 = [] := by
  intro m item rc b
  exact ⟨rfl, rfl, rfl⟩
